import Mathlib

/-!
Shallow embedding of the eBallot Django application's safety-critical core
(core/models.py, core/views.py, core/utils.py, core/forms.py), together with
theorems settling the specification claims about ballot casting, access
gating, invitation redemption, receipts and tallying.

Conventions of the embedding:
* database rows are Lean structures, tables are lists (append = INSERT order);
* `timezone.now()` is an explicit `now : Int` parameter;
* `hashlib.sha256(...).hexdigest()` is an abstract parameter
  `sha256hex : String → String` (library code, not part of the repository);
  the fact that hexdigest output is lowercase hex appears as an explicit
  hypothesis where a theorem needs it;
* `secrets.token_hex(16)` is an abstract salt stream `salt_stream : Nat → String`;
* Django's `transaction.atomic` is modelled by returning the original
  database whenever the transaction aborts (IntegrityError → full rollback).
-/

namespace EBallot

/-- core/models.py Election (the fields the core logic reads). -/
structure Election where
  id : Nat
  visibility : String
  is_active : Bool
  start_date : Int
  end_date : Int
  password : Option String
  max_choices : Nat
  groups : List Nat
deriving DecidableEq

/-- core/models.py Candidate. -/
structure Candidate where
  id : Nat
  election : Nat
  name : String
deriving DecidableEq

/-- core/models.py Vote: carries no voter reference; receipt_hash is globally
unique (enforced below by the IntegrityError branch of the cast loop). -/
structure Vote where
  election : Nat
  candidate : Nat
  demographic_group : Option Nat
  receipt_hash : String
deriving DecidableEq

/-- core/models.py VoterLog: unique_together (user, election). -/
structure VoterLog where
  user : Nat
  election : Nat
  has_voted : Bool
deriving DecidableEq

/-- core/models.py Invitation. The UUID code is modelled as a Nat. -/
structure Invitation where
  election : Nat
  code : Nat
  email : Option String
  used : Bool
  used_by : Option Nat
  expires_at : Option Int
deriving DecidableEq

/-- core/models.py UserGroup with its many-to-many member set. -/
structure UserGroup where
  id : Nat
  members : List Nat
deriving DecidableEq

/-- core/models.py DemographicGroup: de-duplicated (age_group, gender, country). -/
structure DemographicGroup where
  id : Nat
  age_group : String
  gender : String
  country : String
deriving DecidableEq

/-- core/models.py CustomUser (the fields the cast path reads). -/
structure UserRec where
  id : Nat
  age_group : String
  gender : String
  country : String
deriving DecidableEq

/-- The relational state the core operates on. -/
structure DB where
  elections : List Election
  candidates : List Candidate
  votes : List Vote
  voter_logs : List VoterLog
  invitations : List Invitation
  user_groups : List UserGroup
  demographic_groups : List DemographicGroup
deriving DecidableEq

/-- Django get_object_or_404(Election, pk=pk). -/
def DB.findElection (db : DB) (pk : Nat) : Option Election :=
  db.elections.find? (fun e => e.id == pk)

/-- Key predicate of the VoterLog unique_together (user, election). -/
def logKey (u pk : Nat) (l : VoterLog) : Bool :=
  l.user == u && l.election == pk

/-- core/utils.py generate_vote_receipt: returns (salt, receipt_hash) with
receipt_hash = SHA256 of the string "salt:candidate_id:election_id". -/
def generate_vote_receipt (sha256hex : String → String) (salt : String)
    (candidate_id election_id : Nat) : String × String :=
  (salt, sha256hex (salt ++ ":" ++ toString candidate_id ++ ":" ++ toString election_id))

/-- Python truthiness of election.password (None and "" are falsy). -/
def passwordTruthy (e : Election) : Bool :=
  match e.password with
  | some p => p != ""
  | none => false

/-- views.py VoteView.get: membership of the user in one of the election's
groups (election.groups.filter(members=request.user).exists()). -/
def inGroup (db : DB) (e : Election) (uid : Nat) : Bool :=
  db.user_groups.any (fun g => e.groups.contains g.id && g.members.contains uid)

/-- views.py VoteView.get: Invitation.objects.filter(election=election,
used_by=request.user, used=True).exists(). -/
def invitedCheck (db : DB) (pk uid : Nat) : Bool :=
  db.invitations.any (fun i => i.election == pk && i.used_by == some uid && i.used)

/-- Whether the voter's log for this election records a completed vote
(VoterLog.objects.filter(user, election, has_voted=True).exists()). -/
def hasVotedIn (db : DB) (u pk : Nat) : Bool :=
  db.voter_logs.any (fun l => logKey u pk l && l.has_voted)

/-- Outcomes of VoteView.get. -/
inductive PageResult where
  | not_found
  | name_error_crash
  | redirect_password
  | redirect_not_active
  | redirect_already_voted
  | render_form
deriving DecidableEq

/-- views.py VoteView.get, lines 176-213.

The private-visibility denial branch (line 187) executes
`raise Http404("Η εκλογή δεν υπάρχει.")`, but the module's imports
(views.py lines 1-30) never bind the name Http404 — django.http is imported
only for HttpResponseForbidden, JsonResponse and HttpResponse, and
django.shortcuts only for get_object_or_404, redirect and render.  Reaching
that line therefore raises a Python NameError (an HTTP 500), modelled here
as `PageResult.name_error_crash`. -/
def VoteView_get (db : DB) (user : UserRec) (pk : Nat) (now : Int)
    (session_passed : Bool) : PageResult :=
  match db.findElection pk with
  | none => .not_found
  | some election =>
    if election.visibility == "private" &&
        !(inGroup db election user.id) && !(invitedCheck db pk user.id) then
      .name_error_crash
    else if election.visibility == "private" && passwordTruthy election &&
        !session_passed then
      .redirect_password
    else if now < election.start_date || now > election.end_date then
      .redirect_not_active
    else if hasVotedIn db user.id pk then
      .redirect_already_voted
    else
      .render_form

/-- forms.py VoteForm cleaned candidates: the ModelMultipleChoiceField
resolves the submitted ids against election.candidates.all(), so
cleaned_data["candidates"] enumerates the matching Candidate rows in table
order, de-duplicated. -/
def cleanedCandidates (db : DB) (pk : Nat) (chosen : List Nat) : List Nat :=
  (db.candidates.filter (fun c => c.election == pk && chosen.contains c.id)).map
    (fun c => c.id)

/-- forms.py VoteForm.is_valid(): every submitted id must be a candidate of
this election (ModelMultipleChoiceField validation) and clean_candidates
requires 1 <= len(cleaned) <= election.max_choices. -/
def voteFormValid (db : DB) (e : Election) (chosen : List Nat) : Bool :=
  chosen.all (fun cid => db.candidates.any (fun c => c.election == e.id && c.id == cid)) &&
  1 ≤ (cleanedCandidates db e.id chosen).length &&
  (cleanedCandidates db e.id chosen).length ≤ e.max_choices

/-- views.py VoteView.post: VoterLog.objects.select_for_update()
.get_or_create(user=request.user, election=election). -/
def getOrCreateLog (db : DB) (u pk : Nat) : VoterLog × DB :=
  match db.voter_logs.find? (logKey u pk) with
  | some l => (l, db)
  | none =>
    ({ user := u, election := pk, has_voted := false },
     { db with voter_logs := db.voter_logs ++ [{ user := u, election := pk, has_voted := false }] })

/-- views.py VoteView.post: DemographicGroup.objects.get_or_create on the
voter's (age_group, gender, country); the id of a freshly created row is a
surrogate key. -/
def getOrCreateDemo (db : DB) (user : UserRec) : Nat × DB :=
  match db.demographic_groups.find? (fun d =>
      d.age_group == user.age_group && d.gender == user.gender &&
      d.country == user.country) with
  | some d => (d.id, db)
  | none =>
    let d : DemographicGroup :=
      { id := db.demographic_groups.length, age_group := user.age_group,
        gender := user.gender, country := user.country }
    (d.id, { db with demographic_groups := db.demographic_groups ++ [d] })

/-- views.py VoteView.post, lines 237-246: the per-candidate loop.  Each
iteration draws one fresh salt, computes the receipt hash and inserts a Vote
row; inserting a receipt_hash already present in the Vote table violates its
unique constraint and raises IntegrityError (`none`).  There is no retry:
each candidate consumes exactly one salt. -/
def castVotesLoop (sha256hex : String → String) (salt_stream : Nat → String)
    (eid demo : Nat) : List Nat → List Vote → Nat →
    Option (List Vote × List String)
  | [], votes, _ => some (votes, [])
  | cid :: rest, votes, i =>
    let salt := salt_stream i
    let rhash := (generate_vote_receipt sha256hex salt cid eid).2
    if votes.any (fun v => v.receipt_hash == rhash) then
      none
    else
      match castVotesLoop sha256hex salt_stream eid demo rest
          (votes ++ [{ election := eid, candidate := cid,
                       demographic_group := some demo, receipt_hash := rhash }])
          (i + 1) with
      | none => none
      | some (vs, ss) => some (vs, salt :: ss)

/-- Outcomes of VoteView.post. -/
inductive CastResult where
  | not_found
  | invalid_vote
  | already_voted
  | db_error
  | success (salts : List String)
deriving DecidableEq

def CastResult.isSuccess : CastResult → Bool
  | .success _ => true
  | _ => false

/-- views.py VoteView.post, lines 215-257 (CastBallot).  The whole body from
the VoterLog acquisition to the has_voted flip runs inside
transaction.atomic(); an IntegrityError (receipt_hash collision) aborts and
rolls the transaction back completely, so that branch returns the original
database.  The early already-voted return commits, but at that point the
transaction has written nothing new (a freshly created log starts with
has_voted = False, so the already-voted branch only fires on a pre-existing
row). -/
def VoteView_post (sha256hex : String → String) (salt_stream : Nat → String)
    (db : DB) (user : UserRec) (pk : Nat) (chosen : List Nat) :
    CastResult × DB :=
  match db.findElection pk with
  | none => (.not_found, db)
  | some election =>
    if !(voteFormValid db election chosen) then
      (.invalid_vote, db)
    else
      let gl := getOrCreateLog db user.id pk
      if gl.1.has_voted then
        (.already_voted, gl.2)
      else
        let gd := getOrCreateDemo gl.2 user
        match castVotesLoop sha256hex salt_stream pk gd.1
            (cleanedCandidates db pk chosen) gd.2.votes 0 with
        | none => (.db_error, db)
        | some (votes2, salts) =>
          (.success salts,
           { gd.2 with
             votes := votes2,
             voter_logs := gd.2.voter_logs.map (fun l =>
               if logKey user.id pk l then { l with has_voted := true } else l) })

/-- Python truthiness of invitation.email (None and "" falsy). -/
def Invitation.email_set (inv : Invitation) : Bool :=
  match inv.email with
  | some s => s != ""
  | none => false

/-- models.py Invitation.is_valid: a personal (email set) invitation that is
used is invalid; an invitation past its expires_at is invalid; otherwise
valid.  Note the used flag does not invalidate a shared invitation. -/
def Invitation.is_valid (inv : Invitation) (now : Int) : Bool :=
  if inv.email_set && inv.used then false
  else if (match inv.expires_at with
           | some t => decide (now > t)
           | none => false) then false
  else true

/-- Outcomes of views.py invitation_redeem. -/
inductive RedeemResult where
  | not_found
  | invalid_expired_or_used
  | redirect_vote (pk : Nat)
  | redirect_signup
deriving DecidableEq

/-- views.py invitation_redeem, lines 398-412.  Returns the outcome, the
updated database and the session's invitation_code slot.  For an
authenticated user it unconditionally sets used = True and used_by = user —
whether or not the invitation has a bound email. -/
def invitation_redeem (db : DB) (now : Int) (code : Nat) (user : Option Nat)
    (session0 : Option Nat) : RedeemResult × DB × Option Nat :=
  match db.invitations.find? (fun i => i.code == code) with
  | none => (.not_found, db, session0)
  | some inv =>
    if !(inv.is_valid now) then
      (.invalid_expired_or_used, db, session0)
    else
      match user with
      | some uid =>
        (.redirect_vote inv.election,
         { db with invitations := db.invitations.map (fun i =>
             if i.code == code then { i with used := true, used_by := some uid } else i) },
         some code)
      | none => (.redirect_signup, db, some code)

/-- views.py signup_view, lines 88-97: the deferred redemption performed
right after a signup.  It pops the session's invitation_code and looks the
invitation up with Invitation.objects.get(code=code, used=False) — the only
filters are the code and the used flag; expiry is not consulted, and the
function takes no clock at all.  Returns (redeemed?, database). -/
def signup_redeem (db : DB) (session0 : Option Nat) (uid : Nat) : Bool × DB :=
  match session0 with
  | none => (false, db)
  | some code =>
    match db.invitations.find? (fun i => i.code == code && i.used == false) with
    | none => (false, db)
    | some _ =>
      (true,
       { db with invitations := db.invitations.map (fun i =>
           if i.code == code && i.used == false then
             { i with used := true, used_by := some uid }
           else i) })

/-- The receipt hashes stored for an election. -/
def storedHashes (db : DB) (eid : Nat) : List String :=
  (db.votes.filter (fun v => v.election == eid)).map (fun v => v.receipt_hash)

/-- Python str.lower, modelled character-wise over the string's characters. -/
def pyLower (s : String) : String :=
  ⟨s.data.map Char.toLower⟩

/-- Python str.strip with no argument: remove leading and trailing
whitespace. -/
def pyStrip (s : String) : String :=
  ⟨((s.data.dropWhile Char.isWhitespace).reverse.dropWhile Char.isWhitespace).reverse⟩

/-- The normalization verify_receipt applies to its input:
(request.POST.get("hash") or "").strip().lower(). -/
def normalizeHash (s : String) : String :=
  pyLower (pyStrip s)

/-- views.py verify_receipt (POST branch): the submitted hash is stripped and
lowercased, then looked up with Vote.objects.filter(election_id,
receipt_hash=h).exists(). -/
def verify_receipt (db : DB) (election_id : Nat) (input : String) : Bool :=
  let h := normalizeHash input
  db.votes.any (fun v => v.election == election_id && v.receipt_hash == h)

/-- views.py results: number of Vote rows of this election for one candidate
(the Count("id") annotation). -/
def candVoteCount (db : DB) (eid cid : Nat) : Nat :=
  (db.votes.filter (fun v => v.election == eid && v.candidate == cid)).length

/-- The candidates that appear in at least one Vote row of the election —
exactly the groups produced by values("candidate__id", ...).annotate(...),
enumerated here in first-vote order. -/
def votedCandidates (db : DB) (eid : Nat) : List Nat :=
  ((db.votes.filter (fun v => v.election == eid)).map (fun v => v.candidate)).dedup

/-- views.py results, lines 314-319: the candidate-results queryset is the
per-candidate vote counts ordered by order_by("-votes").  The single
ordering key "votes" (descending) is all the code specifies; Django leaves
the relative order of rows with equal keys to the database, so the queryset
is modelled as a relation: any permutation of the (candidate, count) pairs
that is sorted by descending count is an admissible output. -/
def resultsOrder (db : DB) (eid : Nat) (out : List (Nat × Nat)) : Prop :=
  out.Perm ((votedCandidates db eid).map (fun c => (c, candVoteCount db eid c))) ∧
  out.Pairwise (fun a b => b.2 ≤ a.2)

/-- Tie-breaking by candidate insertion order: whenever two entries have the
same vote count, the one whose candidate row was inserted first (earlier in
the Candidate table) comes first. -/
def tiesByInsertion (db : DB) (out : List (Nat × Nat)) : Prop :=
  out.Pairwise (fun a b => a.2 = b.2 →
    (db.candidates.map (fun c => c.id)).indexOf a.1 ≤
    (db.candidates.map (fun c => c.id)).indexOf b.1)

/-- One cast attempt: its salt stream and its submitted candidate ids. -/
structure CastAttempt where
  salt_stream : Nat → String
  chosen : List Nat

/-- A sequence of cast attempts by one voter on one election, run in order
(the select_for_update row lock serializes concurrent attempts of one
(voter, election) pair, so the serial execution is the faithful model). -/
def runCasts (sha256hex : String → String) (user : UserRec) (pk : Nat) :
    List CastAttempt → DB → List CastResult × DB
  | [], db => ([], db)
  | a :: rest, db =>
    let r := VoteView_post sha256hex a.salt_stream db user pk a.chosen
    let rs := runCasts sha256hex user pk rest r.2
    (r.1 :: rs.1, rs.2)

instance (db : DB) (eid : Nat) (out : List (Nat × Nat)) :
    Decidable (resultsOrder db eid out) := by
  unfold resultsOrder; infer_instance

instance (db : DB) (out : List (Nat × Nat)) :
    Decidable (tiesByInsertion db out) := by
  unfold tiesByInsertion; infer_instance

/-- The VoterLog row for (user, election) — the row that select_for_update()
.get_or_create finds — together with its has_voted flag. -/
def hasVotedRow (db : DB) (u pk : Nat) : Bool :=
  match db.voter_logs.find? (logKey u pk) with
  | some l => l.has_voted
  | none => false

/-!
Concrete fixtures used by counterexamples, code-bug evaluations and
witnesses.
-/

/-- A public election, window [0, 10], two choices allowed. -/
def fixElection : Election :=
  { id := 1, visibility := "public", is_active := true, start_date := 0,
    end_date := 10, password := none, max_choices := 2, groups := [] }

/-- A private election whose only authorized group has id 5. -/
def fixPrivate : Election :=
  { id := 2, visibility := "private", is_active := true, start_date := 0,
    end_date := 10, password := none, max_choices := 1, groups := [5] }

def fixCandA : Candidate := { id := 1, election := 1, name := "A" }

def fixCandB : Candidate := { id := 2, election := 1, name := "B" }

/-- A voter who belongs to no group and holds no invitation. -/
def fixUser : UserRec :=
  { id := 7, age_group := "18-25", gender := "Male", country := "GR" }

/-- Baseline state: both elections, candidates A and B of election 1, no
votes, no logs, no invitations, no groups. -/
def fixDB : DB :=
  { elections := [fixElection, fixPrivate], candidates := [fixCandA, fixCandB],
    votes := [], voter_logs := [], invitations := [], user_groups := [],
    demographic_groups := [] }

/-- A shared invitation (no bound email) for the private election. -/
def fixShared : Invitation :=
  { election := 2, code := 42, email := none, used := false, used_by := none,
    expires_at := none }

def fixDBShared : DB := { fixDB with invitations := [fixShared] }

/-- A personal invitation for the private election expiring at time 10. -/
def fixPersonal : Invitation :=
  { election := 2, code := 5, email := some "a@b.c", used := false,
    used_by := none, expires_at := some 10 }

def fixDBPersonal : DB := { fixDB with invitations := [fixPersonal] }

/-- A state holding one vote whose receipt hash collides with the hash the
fixture salt stream would produce for candidate 1 of election 1 under the
identity hash function. -/
def fixDBCollide : DB :=
  { fixDB with votes := [{ election := 3, candidate := 9,
                           demographic_group := none,
                           receipt_hash := "s0:1:1" }] }

/-- A state with one stored receipt hash "abc" for election 1. -/
def fixDBVerify : DB :=
  { fixDB with votes := [{ election := 1, candidate := 1,
                           demographic_group := none,
                           receipt_hash := "abc" }] }

/-- A state where candidates 1 and 2 (inserted in that order) each hold one
vote in election 1. -/
def fixDBTally : DB :=
  { fixDB with votes := [{ election := 1, candidate := 1,
                           demographic_group := none, receipt_hash := "h1" },
                         { election := 1, candidate := 2,
                           demographic_group := none, receipt_hash := "h2" }] }

/-- Identity stand-in for the abstract hash function: lowercase,
whitespace-free inputs map to themselves, so its outputs on the fixture
inputs are fixed by trim/toLower, as hexdigest outputs are. -/
def fixSha : String → String := fun s => s

/-- Fixture salt stream: salt number i is "s i". -/
def fixSalts : Nat → String := fun i => "s" ++ toString i

/-- Constant stand-in hash function whose output is trim/lowercase-invariant
on every input, as SHA-256 hexdigest output is. -/
def constSha : String → String := fun _ => "k"

/-- State in which fixUser has already voted in election 1. -/
def fixDBVoted : DB :=
  { fixDB with voter_logs := [{ user := 7, election := 1, has_voted := true }] }

/-- A personal invitation that has already been redeemed. -/
def fixUsedPersonal : Invitation :=
  { election := 2, code := 6, email := some "c@d.e", used := true,
    used_by := some 3, expires_at := none }

def fixDBUsed : DB := { fixDB with invitations := [fixUsedPersonal] }

/-- Replace the start and end dates of the election with primary key pk,
leaving every other table and field unchanged.  Used to express that the
cast path never reads the time window. -/
def setElectionDates (db : DB) (pk : Nat) (s2 e2 : Int) : DB :=
  { db with elections := db.elections.map (fun e =>
      if e.id == pk then { e with start_date := s2, end_date := e2 } else e) }

/-- The baseline state with election 1's voting window moved entirely into
the past ([-10, -5]): any present time t satisfies t > end_date. -/
def fixDBOver : DB :=
  { fixDB with elections := [{ fixElection with start_date := -10, end_date := -5 },
                             fixPrivate] }

/-- The Vote rows a successful ballot inserts: one per candidate, salt i for
the i-th candidate (mirrors the loop of VoteView.post). -/
def ballotVotes (sha256hex : String → String) (salt_stream : Nat → String)
    (eid demo : Nat) : List Nat → Nat → List Vote
  | [], _ => []
  | cid :: rest, i =>
    { election := eid, candidate := cid, demographic_group := some demo,
      receipt_hash := (generate_vote_receipt sha256hex (salt_stream i) cid eid).2 } ::
    ballotVotes sha256hex salt_stream eid demo rest (i + 1)

/-- The salts a successful ballot returns: one per candidate, in order. -/
def ballotSalts (salt_stream : Nat → String) : List Nat → Nat → List String
  | [], _ => []
  | _ :: rest, i => salt_stream i :: ballotSalts salt_stream rest (i + 1)

lemma find?_map_pres {α : Type} (f : α → α) (p : α → Bool)
    (hp : ∀ x, p (f x) = p x) :
    ∀ xs : List α, (xs.map f).find? p = (xs.find? p).map f := by
  intro xs
  induction xs with
  | nil => rfl
  | cons x xs ih =>
    rw [List.map_cons]
    cases hx : p x with
    | true =>
      rw [List.find?_cons_of_pos _ (by rw [hp x]; exact hx),
          List.find?_cons_of_pos _ hx, Option.map_some']
    | false =>
      rw [List.find?_cons_of_neg _ (by simp [hp x, hx]),
          List.find?_cons_of_neg _ (by simp [hx]), ih]

lemma find?_append_of_none {α : Type} (p : α → Bool) :
    ∀ (l₁ l₂ : List α), l₁.find? p = none → (l₁ ++ l₂).find? p = l₂.find? p := by
  intro l₁
  induction l₁ with
  | nil => intro l₂ _; rfl
  | cons x xs ih =>
    intro l₂ h
    cases hx : p x with
    | true => rw [List.find?_cons_of_pos _ hx] at h; exact absurd h (by simp)
    | false =>
      rw [List.find?_cons_of_neg _ (by simp [hx])] at h
      rw [List.cons_append, List.find?_cons_of_neg _ (by simp [hx])]
      exact ih l₂ h

lemma getOrCreateDemo_votes (db : DB) (u : UserRec) :
    (getOrCreateDemo db u).2.votes = db.votes := by
  unfold getOrCreateDemo
  split <;> rfl

lemma getOrCreateDemo_logs (db : DB) (u : UserRec) :
    (getOrCreateDemo db u).2.voter_logs = db.voter_logs := by
  unfold getOrCreateDemo
  split <;> rfl

lemma getOrCreateLog_of_found {db : DB} {u pk : Nat} {l : VoterLog}
    (h : db.voter_logs.find? (logKey u pk) = some l) :
    getOrCreateLog db u pk = (l, db) := by
  unfold getOrCreateLog
  rw [h]

lemma getOrCreateLog_of_none {db : DB} {u pk : Nat}
    (h : db.voter_logs.find? (logKey u pk) = none) :
    getOrCreateLog db u pk =
      ({ user := u, election := pk, has_voted := false },
       { db with voter_logs :=
           db.voter_logs ++ [{ user := u, election := pk, has_voted := false }] }) := by
  unfold getOrCreateLog
  rw [h]

lemma logKey_update_pres (u pk : Nat) (l : VoterLog) :
    logKey u pk (if logKey u pk l then { l with has_voted := true } else l) =
      logKey u pk l := by
  by_cases h : logKey u pk l = true
  · rw [if_pos h]; rfl
  · rw [if_neg h]

lemma find?_logs_set_true {logs : List VoterLog} {u pk : Nat} {l₀ : VoterLog}
    (h : logs.find? (logKey u pk) = some l₀) :
    (logs.map (fun l => if logKey u pk l then { l with has_voted := true } else l)).find?
        (logKey u pk) = some { l₀ with has_voted := true } := by
  rw [find?_map_pres _ _ (logKey_update_pres u pk) logs, h, Option.map_some']
  rw [if_pos (List.find?_some h)]

lemma logKey_fresh (u pk : Nat) :
    logKey u pk { user := u, election := pk, has_voted := false } = true := by
  simp [logKey]

lemma castVotesLoop_some (sha256hex : String → String) (salt_stream : Nat → String)
    (eid demo : Nat) :
    ∀ (cands : List Nat) (votes : List Vote) (i : Nat) (vs : List Vote)
      (salts : List String),
      castVotesLoop sha256hex salt_stream eid demo cands votes i = some (vs, salts) →
      vs = votes ++ ballotVotes sha256hex salt_stream eid demo cands i ∧
      salts = ballotSalts salt_stream cands i := by
  intro cands
  induction cands with
  | nil =>
    intro votes i vs salts h
    unfold castVotesLoop at h
    injection h with h
    injection h with h1 h2
    simp [ballotVotes, ballotSalts, h1.symm, h2.symm]
  | cons cid rest ih =>
    intro votes i vs salts h
    unfold castVotesLoop at h
    simp only at h
    split at h
    · exact absurd h (by simp)
    · split at h
      · exact absurd h (by simp)
      · rename_i vs' salts' heq
        injection h with h
        injection h with h1 h2
        obtain ⟨hv, hs⟩ := ih _ _ _ _ heq
        subst h1 h2
        constructor
        · rw [hv]
          simp [ballotVotes, List.append_assoc]
        · rw [hs]
          rfl

lemma ballotVotes_map_candidate (sha256hex : String → String)
    (salt_stream : Nat → String) (eid demo : Nat) :
    ∀ (cands : List Nat) (i : Nat),
      (ballotVotes sha256hex salt_stream eid demo cands i).map (fun v => v.candidate) =
        cands := by
  intro cands
  induction cands with
  | nil => intro i; rfl
  | cons cid rest ih => intro i; simp [ballotVotes, ih (i + 1)]

lemma ballotVotes_zip_mem (sha256hex : String → String)
    (salt_stream : Nat → String) (eid demo : Nat) :
    ∀ (cands : List Nat) (i : Nat) (p : String × Nat),
      p ∈ (ballotSalts salt_stream cands i).zip cands →
      ∃ v ∈ ballotVotes sha256hex salt_stream eid demo cands i,
        v.election = eid ∧ v.candidate = p.2 ∧
        v.receipt_hash = sha256hex (p.1 ++ ":" ++ toString p.2 ++ ":" ++ toString eid) := by
  intro cands
  induction cands with
  | nil => intro i p hp; simp [ballotSalts] at hp
  | cons cid rest ih =>
    intro i p hp
    simp only [ballotSalts, List.zip_cons_cons, List.mem_cons] at hp
    rcases hp with hp | hp
    · subst hp
      exact ⟨_, List.mem_cons_self _ _, rfl, rfl, rfl⟩
    · obtain ⟨v, hv, hprops⟩ := ih (i + 1) p hp
      exact ⟨v, List.mem_cons_of_mem _ hv, hprops⟩

lemma ballotVotes_length (sha256hex : String → String) (salt_stream : Nat → String)
    (eid demo : Nat) :
    ∀ (cands : List Nat) (i : Nat),
      (ballotVotes sha256hex salt_stream eid demo cands i).length = cands.length := by
  intro cands
  induction cands with
  | nil => intro i; rfl
  | cons cid rest ih => intro i; simp [ballotVotes, ih (i + 1)]

lemma ballotSalts_length (salt_stream : Nat → String) :
    ∀ (cands : List Nat) (i : Nat),
      (ballotSalts salt_stream cands i).length = cands.length := by
  intro cands
  induction cands with
  | nil => intro i; rfl
  | cons cid rest ih => intro i; simp [ballotSalts, ih (i + 1)]

lemma post_of_no_election {sha : String → String} {ss : Nat → String}
    {db : DB} {u : UserRec} {pk : Nat} {chosen : List Nat}
    (h : db.findElection pk = none) :
    VoteView_post sha ss db u pk chosen = (.not_found, db) := by
  simp [VoteView_post, h]

lemma post_of_invalid {sha : String → String} {ss : Nat → String}
    {db : DB} {u : UserRec} {pk : Nat} {chosen : List Nat} {e : Election}
    (hfe : db.findElection pk = some e)
    (hvf : voteFormValid db e chosen = false) :
    VoteView_post sha ss db u pk chosen = (.invalid_vote, db) := by
  simp [VoteView_post, hfe, hvf]

lemma post_of_already {sha : String → String} {ss : Nat → String}
    {db : DB} {u : UserRec} {pk : Nat} {chosen : List Nat} {e : Election} {l : VoterLog}
    (hfe : db.findElection pk = some e)
    (hvf : voteFormValid db e chosen = true)
    (hl : db.voter_logs.find? (logKey u.id pk) = some l)
    (hv : l.has_voted = true) :
    VoteView_post sha ss db u pk chosen = (.already_voted, db) := by
  simp [VoteView_post, hfe, hvf, getOrCreateLog_of_found hl, hv]

lemma post_eq_loop {sha : String → String} {ss : Nat → String}
    {db : DB} {u : UserRec} {pk : Nat} {chosen : List Nat} {e : Election}
    (hfe : db.findElection pk = some e)
    (hvf : voteFormValid db e chosen = true)
    (hnv : (getOrCreateLog db u.id pk).1.has_voted = false) :
    VoteView_post sha ss db u pk chosen =
      (match castVotesLoop sha ss pk
          (getOrCreateDemo (getOrCreateLog db u.id pk).2 u).1
          (cleanedCandidates db pk chosen)
          (getOrCreateDemo (getOrCreateLog db u.id pk).2 u).2.votes 0 with
       | none => (.db_error, db)
       | some (votes2, salts) =>
         (.success salts,
          { (getOrCreateDemo (getOrCreateLog db u.id pk).2 u).2 with
            votes := votes2,
            voter_logs := (getOrCreateDemo (getOrCreateLog db u.id pk).2 u).2.voter_logs.map
              (fun l => if logKey u.id pk l then { l with has_voted := true } else l) })) := by
  simp [VoteView_post, hfe, hvf, hnv]

lemma getOrCreateLog_not_voted {db : DB} {u pk : Nat}
    (h : hasVotedRow db u pk = false) :
    (getOrCreateLog db u pk).1.has_voted = false := by
  unfold hasVotedRow at h
  cases hl : db.voter_logs.find? (logKey u pk) with
  | none => rw [getOrCreateLog_of_none hl]
  | some l => rw [getOrCreateLog_of_found hl]; rw [hl] at h; exact h

lemma getOrCreateLog_votes (db : DB) (u pk : Nat) :
    (getOrCreateLog db u pk).2.votes = db.votes := by
  unfold getOrCreateLog
  split <;> rfl

lemma getOrCreateLog_find_after (db : DB) (u pk : Nat) :
    ∃ l₀, (getOrCreateLog db u pk).2.voter_logs.find? (logKey u pk) = some l₀ := by
  cases hl : db.voter_logs.find? (logKey u pk) with
  | some l => exact ⟨l, by rw [getOrCreateLog_of_found hl]; exact hl⟩
  | none =>
    refine ⟨{ user := u, election := pk, has_voted := false }, ?_⟩
    rw [getOrCreateLog_of_none hl]
    show (db.voter_logs ++ [_]).find? _ = _
    rw [find?_append_of_none _ _ _ hl]
    exact List.find?_cons_of_pos _ (logKey_fresh u pk)

lemma post_not_success_frame (sha : String → String) (ss : Nat → String)
    (db : DB) (u : UserRec) (pk : Nat) (chosen : List Nat)
    (h : (VoteView_post sha ss db u pk chosen).1.isSuccess = false) :
    (VoteView_post sha ss db u pk chosen).2 = db := by
  cases hfe : db.findElection pk with
  | none => rw [post_of_no_election hfe]
  | some e =>
    cases hvf : voteFormValid db e chosen with
    | false => rw [post_of_invalid hfe hvf]
    | true =>
      cases hvr : hasVotedRow db u.id pk with
      | true =>
        unfold hasVotedRow at hvr
        cases hl : db.voter_logs.find? (logKey u.id pk) with
        | none => rw [hl] at hvr; exact absurd hvr (by simp)
        | some l =>
          rw [hl] at hvr
          rw [post_of_already hfe hvf hl hvr]
      | false =>
        have hnv := getOrCreateLog_not_voted hvr
        rw [post_eq_loop hfe hvf hnv] at h ⊢
        cases hloop : castVotesLoop sha ss pk
            (getOrCreateDemo (getOrCreateLog db u.id pk).2 u).1
            (cleanedCandidates db pk chosen)
            (getOrCreateDemo (getOrCreateLog db u.id pk).2 u).2.votes 0 with
        | none => rfl
        | some pr =>
          obtain ⟨v2, s⟩ := pr
          rw [hloop] at h
          dsimp only at h
          simp [CastResult.isSuccess] at h

lemma post_success_spec {sha : String → String} {ss : Nat → String}
    {db : DB} {u : UserRec} {pk : Nat} {chosen : List Nat} {salts : List String}
    (h : (VoteView_post sha ss db u pk chosen).1 = .success salts) :
    salts = ballotSalts ss (cleanedCandidates db pk chosen) 0 ∧
    (VoteView_post sha ss db u pk chosen).2.votes =
      db.votes ++ ballotVotes sha ss pk
        (getOrCreateDemo (getOrCreateLog db u.id pk).2 u).1
        (cleanedCandidates db pk chosen) 0 ∧
    hasVotedRow (VoteView_post sha ss db u pk chosen).2 u.id pk = true := by
  cases hfe : db.findElection pk with
  | none => rw [post_of_no_election hfe] at h; exact absurd h (by simp)
  | some e =>
    cases hvf : voteFormValid db e chosen with
    | false => rw [post_of_invalid hfe hvf] at h; exact absurd h (by simp)
    | true =>
      cases hvr : hasVotedRow db u.id pk with
      | true =>
        unfold hasVotedRow at hvr
        cases hl : db.voter_logs.find? (logKey u.id pk) with
        | none => rw [hl] at hvr; exact absurd hvr (by simp)
        | some l =>
          rw [hl] at hvr
          rw [post_of_already hfe hvf hl hvr] at h
          exact absurd h (by simp)
      | false =>
        have hnv := getOrCreateLog_not_voted hvr
        rw [post_eq_loop hfe hvf hnv] at h ⊢
        cases hloop : castVotesLoop sha ss pk
            (getOrCreateDemo (getOrCreateLog db u.id pk).2 u).1
            (cleanedCandidates db pk chosen)
            (getOrCreateDemo (getOrCreateLog db u.id pk).2 u).2.votes 0 with
        | none => rw [hloop] at h; dsimp only at h; exact absurd h (by simp)
        | some pr =>
          obtain ⟨v2, s⟩ := pr
          rw [hloop] at h
          dsimp only at h ⊢
          obtain ⟨hv2, hs⟩ := castVotesLoop_some sha ss pk _ _ _ _ _ _ hloop
          injection h with hsalts
          refine ⟨by rw [← hsalts, hs], ?_, ?_⟩
          · rw [hv2, getOrCreateDemo_votes, getOrCreateLog_votes]
          · obtain ⟨l₀, hl₀⟩ := getOrCreateLog_find_after db u.id pk
            have hsrc : (getOrCreateDemo (getOrCreateLog db u.id pk).2 u).2.voter_logs.find?
                (logKey u.id pk) = some l₀ := by
              rw [getOrCreateDemo_logs]; exact hl₀
            unfold hasVotedRow
            rw [find?_logs_set_true hsrc]

lemma post_voted_no_success (sha : String → String) (ss : Nat → String)
    (db : DB) (u : UserRec) (pk : Nat) (chosen : List Nat)
    (h : hasVotedRow db u.id pk = true) :
    (VoteView_post sha ss db u pk chosen).1.isSuccess = false ∧
    (VoteView_post sha ss db u pk chosen).2 = db := by
  cases hfe : db.findElection pk with
  | none => rw [post_of_no_election hfe]; exact ⟨rfl, rfl⟩
  | some e =>
    cases hvf : voteFormValid db e chosen with
    | false => rw [post_of_invalid hfe hvf]; exact ⟨rfl, rfl⟩
    | true =>
      unfold hasVotedRow at h
      cases hl : db.voter_logs.find? (logKey u.id pk) with
      | none => rw [hl] at h; exact absurd h (by simp)
      | some l =>
        rw [hl] at h
        rw [post_of_already hfe hvf hl h]
        exact ⟨rfl, rfl⟩

lemma runCasts_voted (sha : String → String) (u : UserRec) (pk : Nat) (db : DB)
    (h : hasVotedRow db u.id pk = true) :
    ∀ attempts : List CastAttempt,
      (runCasts sha u pk attempts db).1.countP CastResult.isSuccess = 0 ∧
      (runCasts sha u pk attempts db).2 = db := by
  intro attempts
  induction attempts with
  | nil => exact ⟨rfl, rfl⟩
  | cons a rest ih =>
    obtain ⟨hns, hdb⟩ := post_voted_no_success sha a.salt_stream db u pk a.chosen h
    unfold runCasts
    dsimp only
    rw [hdb]
    constructor
    · rw [List.countP_cons, hns]
      simp [ih.1]
    · exact ih.2

lemma runCasts_fresh (sha : String → String) (u : UserRec) (pk : Nat) :
    ∀ (attempts : List CastAttempt) (db : DB),
      hasVotedRow db u.id pk = false →
      (runCasts sha u pk attempts db).1.countP CastResult.isSuccess ≤ 1 ∧
      (hasVotedRow (runCasts sha u pk attempts db).2 u.id pk = true ↔
        (runCasts sha u pk attempts db).1.countP CastResult.isSuccess = 1) := by
  intro attempts
  induction attempts with
  | nil =>
    intro db h
    refine ⟨by simp [runCasts], ?_⟩
    unfold runCasts
    simp [h]
  | cons a rest ih =>
    intro db h
    unfold runCasts
    dsimp only
    cases hs : (VoteView_post sha a.salt_stream db u pk a.chosen).1.isSuccess with
    | false =>
      have hdb := post_not_success_frame sha a.salt_stream db u pk a.chosen hs
      rw [hdb]
      obtain ⟨ihc, ihiff⟩ := ih db h
      constructor
      · rw [List.countP_cons, hs]
        simpa using ihc
      · rw [List.countP_cons, hs]
        simpa using ihiff
    | true =>
      have hsucc : ∃ salts, (VoteView_post sha a.salt_stream db u pk a.chosen).1 =
          .success salts := by
        cases hr : (VoteView_post sha a.salt_stream db u pk a.chosen).1 with
        | success s => exact ⟨s, rfl⟩
        | not_found => rw [hr] at hs; exact absurd hs (by simp [CastResult.isSuccess])
        | invalid_vote => rw [hr] at hs; exact absurd hs (by simp [CastResult.isSuccess])
        | already_voted => rw [hr] at hs; exact absurd hs (by simp [CastResult.isSuccess])
        | db_error => rw [hr] at hs; exact absurd hs (by simp [CastResult.isSuccess])
      obtain ⟨salts, hr⟩ := hsucc
      have hvoted := (post_success_spec hr).2.2
      obtain ⟨hc0, hfinal⟩ := runCasts_voted sha u pk _ hvoted rest
      rw [hfinal]
      constructor
      · rw [List.countP_cons, hs, hc0]
        simp
      · rw [List.countP_cons, hs, hc0]
        simp [hvoted]

lemma verify_eq_mem (db : DB) (eid : Nat) (input : String) :
    verify_receipt db eid input = true ↔ normalizeHash input ∈ storedHashes db eid := by
  unfold verify_receipt storedHashes
  rw [List.any_eq_true]
  constructor
  · rintro ⟨v, hv, hp⟩
    simp only [Bool.and_eq_true, beq_iff_eq] at hp
    exact List.mem_map.mpr ⟨v, List.mem_filter.mpr ⟨hv, by simp [hp.1]⟩, hp.2⟩
  · intro hmem
    obtain ⟨v, hvf, hveq⟩ := List.mem_map.mp hmem
    obtain ⟨hv, helig⟩ := List.mem_filter.mp hvf
    refine ⟨v, hv, ?_⟩
    simp only [beq_iff_eq] at helig
    simp [helig, hveq]

lemma verify_true_of_mem {db : DB} {eid : Nat} {v : Vote} (hv : v ∈ db.votes)
    (he : v.election = eid) {input : String}
    (hn : normalizeHash input = v.receipt_hash) :
    verify_receipt db eid input = true := by
  unfold verify_receipt
  rw [List.any_eq_true]
  exact ⟨v, hv, by simp [he, hn]⟩

lemma mem_storedHashes {db : DB} {eid : Nat} {v : Vote}
    (hv : v ∈ db.votes) (he : v.election = eid) :
    v.receipt_hash ∈ storedHashes db eid := by
  unfold storedHashes
  exact List.mem_map_of_mem _ (List.mem_filter.mpr ⟨hv, by simp [he]⟩)

lemma findElection_setDates (db : DB) (pk : Nat) (s2 e2 : Int) :
    (setElectionDates db pk s2 e2).findElection pk =
      (db.findElection pk).map (fun e =>
        if e.id == pk then { e with start_date := s2, end_date := e2 } else e) := by
  unfold DB.findElection setElectionDates
  refine find?_map_pres _ _ (fun e => ?_) db.elections
  by_cases h : (e.id == pk) = true
  · rw [if_pos h]
  · rw [if_neg h]

lemma getOrCreateLog_demos (db : DB) (u pk : Nat) :
    (getOrCreateLog db u pk).2.demographic_groups = db.demographic_groups := by
  unfold getOrCreateLog
  split <;> rfl

lemma getOrCreateDemo_id_eq (db1 db2 : DB) (u : UserRec)
    (h : db1.demographic_groups = db2.demographic_groups) :
    (getOrCreateDemo db1 u).1 = (getOrCreateDemo db2 u).1 := by
  unfold getOrCreateDemo
  rw [h]
  cases hfind : db2.demographic_groups.find? (fun d =>
      d.age_group == u.age_group && d.gender == u.gender &&
      d.country == u.country) <;> rfl

/-- C1: once the VoterLog row for (voter, election) has has_voted = true,
every cast attempt against the existing election with a valid choice list
aborts with AlreadyVoted and leaves the database unchanged (no new Vote
rows, no receipts); and starting from a state where the voter has not
voted, any sequence of cast attempts produces at most one success, and the
row's has_voted flag ends up true iff exactly one attempt succeeded. -/
theorem C1_exactly_once :
    (∀ (sha256hex : String → String) (salt_stream : Nat → String) (db : DB)
        (u : UserRec) (pk : Nat) (chosen : List Nat) (e : Election),
        db.findElection pk = some e →
        voteFormValid db e chosen = true →
        hasVotedRow db u.id pk = true →
        VoteView_post sha256hex salt_stream db u pk chosen = (.already_voted, db)) ∧
    (∀ (sha256hex : String → String) (u : UserRec) (pk : Nat)
        (attempts : List CastAttempt) (db : DB),
        hasVotedRow db u.id pk = false →
        (runCasts sha256hex u pk attempts db).1.countP CastResult.isSuccess ≤ 1 ∧
        (hasVotedRow (runCasts sha256hex u pk attempts db).2 u.id pk = true ↔
          (runCasts sha256hex u pk attempts db).1.countP CastResult.isSuccess = 1)) := by
  constructor
  · intro sha ss db u pk chosen e hfe hvf hv
    unfold hasVotedRow at hv
    cases hl : db.voter_logs.find? (logKey u.id pk) with
    | none => rw [hl] at hv; exact absurd hv (by simp)
    | some l => rw [hl] at hv; exact post_of_already hfe hvf hl hv
  · intro sha u pk attempts db h
    exact runCasts_fresh sha u pk attempts db h

/-- C1 witness: the already-voted state rejects a further cast unchanged,
and a two-attempt run from a fresh state has exactly one success, matching
the final has_voted flag. -/
theorem C1_exactly_once_witness :
    (VoteView_post constSha fixSalts fixDBVoted fixUser 1 [1] =
      (.already_voted, fixDBVoted)) ∧
    ((runCasts fixSha fixUser 1
        [{ salt_stream := fixSalts, chosen := [1, 2] },
         { salt_stream := fixSalts, chosen := [1] }] fixDB).1.countP
        CastResult.isSuccess ≤ 1 ∧
     (hasVotedRow (runCasts fixSha fixUser 1
        [{ salt_stream := fixSalts, chosen := [1, 2] },
         { salt_stream := fixSalts, chosen := [1] }] fixDB).2 fixUser.id 1 = true ↔
      (runCasts fixSha fixUser 1
        [{ salt_stream := fixSalts, chosen := [1, 2] },
         { salt_stream := fixSalts, chosen := [1] }] fixDB).1.countP
        CastResult.isSuccess = 1)) :=
  ⟨C1_exactly_once.1 constSha fixSalts fixDBVoted fixUser 1 [1] fixElection
      (by decide) (by decide) (by decide),
   C1_exactly_once.2 fixSha fixUser 1
      [{ salt_stream := fixSalts, chosen := [1, 2] },
       { salt_stream := fixSalts, chosen := [1] }] fixDB (by decide)⟩

/-- C2: CastBallot is all-or-nothing: every non-successful outcome leaves
the database exactly as it was (all Vote inserts rolled back, has_voted
untouched), and a successful outcome appends exactly one Vote row per
cleaned chosen candidate — never a strict subset. -/
theorem C2_all_or_nothing :
    (∀ (sha256hex : String → String) (salt_stream : Nat → String) (db : DB)
        (u : UserRec) (pk : Nat) (chosen : List Nat),
        (VoteView_post sha256hex salt_stream db u pk chosen).1.isSuccess = false →
        (VoteView_post sha256hex salt_stream db u pk chosen).2 = db) ∧
    (∀ (sha256hex : String → String) (salt_stream : Nat → String) (db : DB)
        (u : UserRec) (pk : Nat) (chosen : List Nat) (salts : List String),
        (VoteView_post sha256hex salt_stream db u pk chosen).1 = .success salts →
        ∃ newVotes : List Vote,
          (VoteView_post sha256hex salt_stream db u pk chosen).2.votes =
            db.votes ++ newVotes ∧
          newVotes.map (fun v => v.candidate) = cleanedCandidates db pk chosen ∧
          newVotes.length = salts.length) := by
  constructor
  · exact post_not_success_frame
  · intro sha ss db u pk chosen salts h
    obtain ⟨hsalts, hvotes, _⟩ := post_success_spec h
    refine ⟨_, hvotes, ballotVotes_map_candidate _ _ _ _ _ 0, ?_⟩
    rw [ballotVotes_length, hsalts, ballotSalts_length]

/-- C2 witness: a failing cast (empty choice list) leaves the fixture state
unchanged; a successful two-candidate cast appends exactly two Vote rows. -/
theorem C2_all_or_nothing_witness :
    ((VoteView_post fixSha fixSalts fixDB fixUser 1 []).2 = fixDB) ∧
    (∃ newVotes : List Vote,
      (VoteView_post fixSha fixSalts fixDB fixUser 1 [1, 2]).2.votes =
        fixDB.votes ++ newVotes ∧
      newVotes.map (fun v => v.candidate) = cleanedCandidates fixDB 1 [1, 2] ∧
      newVotes.length = (["s0", "s1"] : List String).length) :=
  ⟨C2_all_or_nothing.1 fixSha fixSalts fixDB fixUser 1 [] (by decide),
   C2_all_or_nothing.2 fixSha fixSalts fixDB fixUser 1 [1, 2] ["s0", "s1"] (by decide)⟩

/-- C3 counterexample: the claim's literal negative direction fails — the
submitted string "ABC" is not equal to any stored receipt_hash of election 1
(the only one is "abc"), yet Verify returns true, because verify_receipt
lowercases its input before the lookup. -/
theorem C3_counterexample :
    (∀ v ∈ fixDBVerify.votes, v.election = 1 → v.receipt_hash ≠ "ABC") ∧
    verify_receipt fixDBVerify 1 "ABC" = true := by decide

/-- C3 (amended): for every successful cast, each (salt, candidate) pair of
the ballot has a stored Vote row of this election whose receipt_hash equals
sha256hex(salt:candidate:election), and Verify accepts that hash (given that
hash outputs are strip/lowercase-invariant, as hexdigest output is); and
Verify rejects every input whose normalized (stripped, lowercased) form
matches no stored receipt_hash of the election. -/
theorem C3_receipt_round_trip :
    (∀ (sha256hex : String → String) (salt_stream : Nat → String) (db : DB)
        (u : UserRec) (pk : Nat) (chosen : List Nat) (salts : List String),
        (∀ s, normalizeHash (sha256hex s) = sha256hex s) →
        (VoteView_post sha256hex salt_stream db u pk chosen).1 = .success salts →
        ∀ p ∈ salts.zip (cleanedCandidates db pk chosen),
          (∃ v ∈ (VoteView_post sha256hex salt_stream db u pk chosen).2.votes,
             v.election = pk ∧ v.candidate = p.2 ∧
             v.receipt_hash = sha256hex (p.1 ++ ":" ++ toString p.2 ++ ":" ++ toString pk)) ∧
          verify_receipt (VoteView_post sha256hex salt_stream db u pk chosen).2 pk
            (sha256hex (p.1 ++ ":" ++ toString p.2 ++ ":" ++ toString pk)) = true) ∧
    (∀ (db : DB) (eid : Nat) (input : String),
        normalizeHash input ∉ storedHashes db eid →
        verify_receipt db eid input = false) := by
  constructor
  · intro sha ss db u pk chosen salts hlower h p hp
    obtain ⟨hsalts, hvotes, _⟩ := post_success_spec h
    rw [hsalts] at hp
    obtain ⟨v, hvmem, helec, hcand, hhash⟩ :=
      ballotVotes_zip_mem sha ss pk _ (cleanedCandidates db pk chosen) 0 p hp
    have hvdb : v ∈ (VoteView_post sha ss db u pk chosen).2.votes := by
      rw [hvotes]; exact List.mem_append_right _ hvmem
    refine ⟨⟨v, hvdb, helec, hcand, hhash⟩, ?_⟩
    exact verify_true_of_mem hvdb helec (by rw [hlower]; exact hhash.symm)
  · intro db eid input hnot
    cases hb : verify_receipt db eid input with
    | false => rfl
    | true => exact absurd ((verify_eq_mem db eid input).mp hb) hnot

/-- C3 witness: a concrete one-candidate cast whose returned salt round-trips
through Verify, and a rejected unrelated hash. -/
theorem C3_receipt_round_trip_witness :
    ((∃ v ∈ (VoteView_post constSha fixSalts fixDB fixUser 1 [1]).2.votes,
        v.election = 1 ∧ v.candidate = 1 ∧
        v.receipt_hash = constSha ("s0" ++ ":" ++ toString 1 ++ ":" ++ toString 1)) ∧
     verify_receipt (VoteView_post constSha fixSalts fixDB fixUser 1 [1]).2 1
       (constSha ("s0" ++ ":" ++ toString 1 ++ ":" ++ toString 1)) = true) ∧
    verify_receipt fixDB 1 "zzz" = false :=
  ⟨C3_receipt_round_trip.1 constSha fixSalts fixDB fixUser 1 [1] ["s0"]
      (fun _ => (by decide : normalizeHash "k" = "k")) (by decide) ("s0", 1) (by decide),
   C3_receipt_round_trip.2 fixDB 1 "zzz" (by decide)⟩

/-- C4: evaluating the access gate at the failing input — an authenticated
voter who is in none of the private election's groups and holds no redeemed
invitation — does not produce the not-found rendering the claim requires:
views.py line 187 raises the unimported name Http404, so the request dies
with a NameError (HTTP 500), a distinguishable crash. -/
theorem C4_denied_private_crashes :
    VoteView_get fixDB fixUser 2 5 false = PageResult.name_error_crash ∧
    PageResult.name_error_crash ≠ PageResult.not_found ∧
    fixPrivate.visibility = "private" ∧
    inGroup fixDB fixPrivate fixUser.id = false ∧
    invitedCheck fixDB 2 fixUser.id = false := by decide

/-- C5 counterexample: redeeming a shared invitation (email = none, unused)
by authenticated voter 7 succeeds but sets used = true and used_by = 7,
contradicting the claim that the flags stay unchanged; after voter 8
redeems the same code, voter 7 no longer passes the access gate's
invitation check. -/
theorem C5_counterexample :
    fixShared.email = none ∧ fixShared.used = false ∧
    (invitation_redeem fixDBShared 5 42 (some 7) none).1 = RedeemResult.redirect_vote 2 ∧
    (invitation_redeem fixDBShared 5 42 (some 7) none).2.1.invitations =
      [{ fixShared with used := true, used_by := some 7 }] ∧
    invitedCheck (invitation_redeem (invitation_redeem fixDBShared 5 42 (some 7) none).2.1
      5 42 (some 8) none).2.1 2 7 = false := by decide

/-- C5 (amended): a successful authenticated redemption of a shared (no
email) invitation redirects to the election's ballot and marks the
invitation used = true with used_by rebound to the redeemer, overwriting
any previous binding. -/
theorem C5_shared_redeem_marks_used :
    ∀ (db : DB) (now : Int) (code uid : Nat) (sess : Option Nat) (inv : Invitation),
      db.invitations.find? (fun i => i.code == code) = some inv →
      inv.email_set = false →
      inv.is_valid now = true →
      (invitation_redeem db now code (some uid) sess).1 =
        RedeemResult.redirect_vote inv.election ∧
      ∀ i ∈ (invitation_redeem db now code (some uid) sess).2.1.invitations,
        i.code = code → i.used = true ∧ i.used_by = some uid := by
  intro db now code uid sess inv hfind hemail hvalid
  unfold invitation_redeem
  rw [hfind]
  dsimp only
  rw [hvalid]
  simp only [Bool.not_true, Bool.false_eq_true, if_false]
  constructor
  · exact trivial
  · intro i hi hcode
    obtain ⟨j, hj, rfl⟩ := List.mem_map.mp hi
    by_cases hc : (j.code == code) = true
    · rw [if_pos hc]; exact ⟨rfl, rfl⟩
    · rw [if_neg hc] at hcode ⊢
      exact absurd (beq_iff_eq.mpr hcode) hc

/-- C5 witness: the shared fixture invitation ends used and bound to the
concrete redeemer. -/
theorem C5_shared_redeem_witness :
    ((invitation_redeem fixDBShared 5 42 (some 7) none).1 =
      RedeemResult.redirect_vote fixShared.election) ∧
    (∀ i ∈ (invitation_redeem fixDBShared 5 42 (some 7) none).2.1.invitations,
      i.code = 42 → i.used = true ∧ i.used_by = some 7) :=
  C5_shared_redeem_marks_used fixDBShared 5 42 7 none fixShared
    (by decide) (by decide) (by decide)

/-- C6 counterexample: an invitation whose expiry (time 10) has passed at
time 100 — so is_valid is false — is nevertheless successfully redeemed by
the deferred signup path, which filters only on used = False and consults
no clock. -/
theorem C6_counterexample :
    Invitation.is_valid fixPersonal 100 = false ∧
    (signup_redeem fixDBPersonal (some 5) 9).1 = true ∧
    (signup_redeem fixDBPersonal (some 5) 9).2.invitations =
      [{ fixPersonal with used := true, used_by := some 9 }] := by decide

/-- C6 (amended): the direct link path fails on a used personal invitation
and on any expired invitation regardless of use state (both with the single
combined expired-or-used error); but the deferred signup path checks only
the used flag, so any unused invitation matching the session code —
expired or not — is redeemed there. -/
theorem C6_redeem_failure_modes :
    (∀ (db : DB) (now : Int) (code : Nat) (user sess : Option Nat) (inv : Invitation),
        db.invitations.find? (fun i => i.code == code) = some inv →
        inv.email_set = true → inv.used = true →
        invitation_redeem db now code user sess =
          (RedeemResult.invalid_expired_or_used, db, sess)) ∧
    (∀ (db : DB) (now : Int) (code : Nat) (user sess : Option Nat)
        (inv : Invitation) (t : Int),
        db.invitations.find? (fun i => i.code == code) = some inv →
        inv.expires_at = some t → now > t →
        invitation_redeem db now code user sess =
          (RedeemResult.invalid_expired_or_used, db, sess)) ∧
    (∀ (db : DB) (code uid : Nat) (inv : Invitation),
        db.invitations.find? (fun i => i.code == code && i.used == false) = some inv →
        (signup_redeem db (some code) uid).1 = true ∧
        ∀ i ∈ (signup_redeem db (some code) uid).2.invitations,
          i.code = code → i.used = true) := by
  refine ⟨?_, ?_, ?_⟩
  · intro db now code user sess inv hfind hemail hused
    have hval : inv.is_valid now = false := by
      unfold Invitation.is_valid
      rw [hemail, hused]
      simp
    simp [invitation_redeem, hfind, hval]
  · intro db now code user sess inv t hfind hexp hnow
    have hval : inv.is_valid now = false := by
      unfold Invitation.is_valid
      rw [hexp]
      simp [hnow]
    simp [invitation_redeem, hfind, hval]
  · intro db code uid inv hfind
    constructor
    · unfold signup_redeem
      dsimp only
      rw [hfind]
    · intro i hi hcode
      unfold signup_redeem at hi
      dsimp only at hi
      rw [hfind] at hi
      obtain ⟨j, hj, rfl⟩ := List.mem_map.mp hi
      by_cases hc : (j.code == code && j.used == false) = true
      · rw [if_pos hc]
      · rw [if_neg hc] at hcode ⊢
        have hcc : (j.code == code) = true := beq_iff_eq.mpr hcode
        have hcu : (j.used == false) = false := by
          cases hcu : (j.used == false) with
          | false => rfl
          | true =>
            exact absurd (by rw [hcc, hcu]; rfl :
              (j.code == code && j.used == false) = true) hc
        simpa using hcu

/-- C6 witness: concrete instances of all three redemption behaviors. -/
theorem C6_redeem_failure_modes_witness :
    (invitation_redeem fixDBUsed 5 6 (some 9) none =
      (RedeemResult.invalid_expired_or_used, fixDBUsed, none)) ∧
    (invitation_redeem fixDBPersonal 100 5 (some 9) none =
      (RedeemResult.invalid_expired_or_used, fixDBPersonal, none)) ∧
    ((signup_redeem fixDBPersonal (some 5) 9).1 = true ∧
     ∀ i ∈ (signup_redeem fixDBPersonal (some 5) 9).2.invitations,
       i.code = 5 → i.used = true) :=
  ⟨C6_redeem_failure_modes.1 fixDBUsed 5 6 (some 9) none fixUsedPersonal
      (by decide) (by decide) (by decide),
   C6_redeem_failure_modes.2.1 fixDBPersonal 100 5 (some 9) none fixPersonal 10
      (by decide) (by decide) (by decide),
   C6_redeem_failure_modes.2.2 fixDBPersonal 5 9 fixPersonal (by decide)⟩

/-- C7 counterexample, refuting the claim twice over.  First, at a time
exactly equal to the election's end_date (now = 10 = fixElection.end_date)
the access gate renders the ballot form instead of denying with the
not-active redirect — the window's upper bound is inclusive, not half-open.
Second, the cast attempt itself is never time-gated: VoteView.post reads no
clock at all (the embedding of views.py:215-257 has no time parameter
because the handler never calls timezone.now), so on an election whose
window ended at time -5 a cast at any later time t > end_date still
succeeds instead of being denied "not active". -/
theorem C7_counterexample :
    fixDB.findElection 1 = some fixElection ∧ fixElection.end_date = 10 ∧
    VoteView_get fixDB fixUser 1 10 false = PageResult.render_form ∧
    PageResult.render_form ≠ PageResult.redirect_not_active ∧
    fixDBOver.findElection 1 =
      some { fixElection with start_date := -10, end_date := -5 } ∧
    (VoteView_post fixSha fixSalts fixDBOver fixUser 1 [1]).1 =
      CastResult.success ["s0"] := by decide

/-- C7 (amended): time-window enforcement exists only in the ballot GET
view and uses the closed interval [start_date, end_date]: the form is
rendered only when start_date ≤ now ≤ end_date, and once the code's
visibility gate and password gate have passed (their conditions are exactly
the hypotheses below), a request with now > end_date is denied with the
not-active redirect — at now = end_date access is still granted, and for a
private election without access the earlier gates fire before the time
check.  The POST cast path performs no time check at all: its outcome is
invariant under arbitrary replacement of the election's start and end
dates, so a cast attempt after end_date proceeds exactly as one in-window. -/
theorem C7_closed_time_window :
    (∀ (db : DB) (u : UserRec) (pk : Nat) (now : Int) (sp : Bool),
        VoteView_get db u pk now sp = PageResult.render_form →
        ∃ e, db.findElection pk = some e ∧ e.start_date ≤ now ∧ now ≤ e.end_date) ∧
    (∀ (db : DB) (u : UserRec) (pk : Nat) (now : Int) (sp : Bool) (e : Election),
        db.findElection pk = some e →
        (e.visibility == "private" && !inGroup db e u.id &&
          !invitedCheck db pk u.id) = false →
        (e.visibility == "private" && passwordTruthy e && !sp) = false →
        now > e.end_date →
        VoteView_get db u pk now sp = PageResult.redirect_not_active) ∧
    (∀ (sha256hex : String → String) (salt_stream : Nat → String) (db : DB)
        (u : UserRec) (pk : Nat) (chosen : List Nat) (s2 e2 : Int),
        (VoteView_post sha256hex salt_stream (setElectionDates db pk s2 e2) u pk chosen).1 =
          (VoteView_post sha256hex salt_stream db u pk chosen).1) := by
  refine ⟨?_, ?_, ?_⟩
  · intro db u pk now sp h
    unfold VoteView_get at h
    cases hfe : db.findElection pk with
    | none => rw [hfe] at h; exact absurd h (by simp)
    | some e =>
      rw [hfe] at h
      dsimp only at h
      refine ⟨e, rfl, ?_⟩
      by_cases h1 : (e.visibility == "private" && !inGroup db e u.id &&
          !invitedCheck db pk u.id) = true
      · rw [if_pos h1] at h; exact absurd h (by simp)
      · rw [if_neg h1] at h
        by_cases h2 : (e.visibility == "private" && passwordTruthy e && !sp) = true
        · rw [if_pos h2] at h; exact absurd h (by simp)
        · rw [if_neg h2] at h
          by_cases h3 : (decide (now < e.start_date) || decide (now > e.end_date)) = true
          · rw [if_pos h3] at h; exact absurd h (by simp)
          · rw [if_neg h3] at h
            simp only [Bool.or_eq_true, decide_eq_true_eq] at h3
            push_neg at h3
            exact h3
  · intro db u pk now sp e hfe h1 h2 hend
    unfold VoteView_get
    rw [hfe]
    dsimp only
    rw [if_neg (by simp [h1]), if_neg (by simp [h2]), if_pos (by simp [hend])]
  · intro sha ss db u pk chosen s2 e2
    cases hfe : db.findElection pk with
    | none =>
      have hfe' : (setElectionDates db pk s2 e2).findElection pk = none := by
        rw [findElection_setDates, hfe]; rfl
      rw [post_of_no_election hfe', post_of_no_election hfe]
    | some e =>
      have hfe0 : db.elections.find? (fun x => x.id == pk) = some e := hfe
      have hid := List.find?_some hfe0
      have hfe' : (setElectionDates db pk s2 e2).findElection pk =
          some { e with start_date := s2, end_date := e2 } := by
        rw [findElection_setDates, hfe, Option.map_some', if_pos hid]
      cases hvf : voteFormValid db e chosen with
      | false =>
        have hvf' : voteFormValid (setElectionDates db pk s2 e2)
            { e with start_date := s2, end_date := e2 } chosen = false := hvf
        rw [post_of_invalid hfe' hvf', post_of_invalid hfe hvf]
      | true =>
        have hvf' : voteFormValid (setElectionDates db pk s2 e2)
            { e with start_date := s2, end_date := e2 } chosen = true := hvf
        cases hvr : hasVotedRow db u.id pk with
        | true =>
          unfold hasVotedRow at hvr
          cases hl : db.voter_logs.find? (logKey u.id pk) with
          | none => rw [hl] at hvr; exact absurd hvr (by simp)
          | some l =>
            rw [hl] at hvr
            have hl' : (setElectionDates db pk s2 e2).voter_logs.find?
                (logKey u.id pk) = some l := hl
            rw [post_of_already hfe' hvf' hl' hvr, post_of_already hfe hvf hl hvr]
        | false =>
          have hvr' : hasVotedRow (setElectionDates db pk s2 e2) u.id pk = false := hvr
          have hnv := getOrCreateLog_not_voted hvr
          have hnv' := getOrCreateLog_not_voted hvr'
          rw [post_eq_loop hfe' hvf' hnv', post_eq_loop hfe hvf hnv]
          have hdg : ((getOrCreateLog (setElectionDates db pk s2 e2) u.id pk).2).demographic_groups =
              ((getOrCreateLog db u.id pk).2).demographic_groups := by
            rw [getOrCreateLog_demos, getOrCreateLog_demos]
            rfl
          have hdemoeq := getOrCreateDemo_id_eq _ _ u hdg
          have hvoteseq :
              (getOrCreateDemo (getOrCreateLog (setElectionDates db pk s2 e2) u.id pk).2 u).2.votes =
                (getOrCreateDemo (getOrCreateLog db u.id pk).2 u).2.votes := by
            rw [getOrCreateDemo_votes, getOrCreateDemo_votes,
                getOrCreateLog_votes, getOrCreateLog_votes]
            rfl
          have hclean : cleanedCandidates (setElectionDates db pk s2 e2) pk chosen =
              cleanedCandidates db pk chosen := rfl
          rw [hdemoeq, hvoteseq, hclean]
          cases hloop : castVotesLoop sha ss pk
              (getOrCreateDemo (getOrCreateLog db u.id pk).2 u).1
              (cleanedCandidates db pk chosen)
              (getOrCreateDemo (getOrCreateLog db u.id pk).2 u).2.votes 0 with
          | none => rfl
          | some pr => obtain ⟨v2, s⟩ := pr; rfl

/-- C7 witness: the public fixture election at an in-window time yields the
window bounds; at time 11 > end_date = 10 (gates trivially passed) the
not-active redirect; and moving election 1's window into the past leaves
the concrete cast outcome unchanged. -/
theorem C7_closed_time_window_witness :
    (∃ e, fixDB.findElection 1 = some e ∧ e.start_date ≤ 5 ∧ (5 : Int) ≤ e.end_date) ∧
    VoteView_get fixDB fixUser 1 11 false = PageResult.redirect_not_active ∧
    (VoteView_post fixSha fixSalts (setElectionDates fixDB 1 (-10) (-5)) fixUser 1 [1]).1 =
      (VoteView_post fixSha fixSalts fixDB fixUser 1 [1]).1 :=
  ⟨C7_closed_time_window.1 fixDB fixUser 1 5 false (by decide),
   C7_closed_time_window.2.1 fixDB fixUser 1 11 false fixElection
      (by decide) (by decide) (by decide) (by decide),
   C7_closed_time_window.2.2 fixSha fixSalts fixDB fixUser 1 [1] (-10) (-5)⟩

/-- C8 counterexample: with candidates 1 and 2 (inserted in that order)
tied at one vote each, the output [(2, 1), (1, 1)] satisfies everything
order_by("-votes") specifies, yet lists the later-inserted candidate first —
the claimed deterministic insertion-order tie-break is not guaranteed by the
code. -/
theorem C8_counterexample :
    resultsOrder fixDBTally 1 [(2, 1), (1, 1)] ∧
    ¬ tiesByInsertion fixDBTally [(2, 1), (1, 1)] := by decide

/-- C8 (amended): every admissible candidate-results output contains exactly
one entry per candidate with at least one vote, carrying that candidate's
Vote-row count, ordered by non-increasing vote count; the relative order of
tied candidates is left unspecified by the code. -/
theorem C8_results_content :
    ∀ (db : DB) (eid : Nat) (out : List (Nat × Nat)),
      resultsOrder db eid out →
      (∀ p : Nat × Nat, p ∈ out ↔
         (p.1 ∈ votedCandidates db eid ∧ p.2 = candVoteCount db eid p.1)) ∧
      out.Pairwise (fun a b => b.2 ≤ a.2) := by
  intro db eid out hro
  obtain ⟨hperm, hsorted⟩ := hro
  refine ⟨fun p => ?_, hsorted⟩
  rw [hperm.mem_iff, List.mem_map]
  constructor
  · rintro ⟨c, hc, rfl⟩
    exact ⟨hc, rfl⟩
  · obtain ⟨p1, p2⟩ := p
    rintro ⟨h1, h2⟩
    dsimp only at h1 h2
    subst h2
    exact ⟨p1, h1, rfl⟩

/-- C8 witness: the insertion-ordered output of the tally fixture satisfies
the amended specification. -/
theorem C8_results_content_witness :
    (∀ p : Nat × Nat, p ∈ ([(1, 1), (2, 1)] : List (Nat × Nat)) ↔
       (p.1 ∈ votedCandidates fixDBTally 1 ∧ p.2 = candVoteCount fixDBTally 1 p.1)) ∧
    ([(1, 1), (2, 1)] : List (Nat × Nat)).Pairwise (fun a b => b.2 ≤ a.2) :=
  C8_results_content fixDBTally 1 [(1, 1), (2, 1)] (by decide)

/-- C9 counterexample: a single receipt-hash collision (the table already
holds the hash the first insert would get) makes the whole cast fail with
the fatal DB error and a full rollback — no retry with a fresh salt ever
happens. -/
theorem C9_counterexample :
    fixDBCollide.votes.map (fun v => v.receipt_hash) = ["s0:1:1"] ∧
    fixSha (fixSalts 0 ++ ":" ++ toString 1 ++ ":" ++ toString 1) = "s0:1:1" ∧
    VoteView_post fixSha fixSalts fixDBCollide fixUser 1 [1] =
      (CastResult.db_error, fixDBCollide) := by decide

/-- C9 (amended): a receipt_hash uniqueness collision raises IntegrityError,
which aborts the transaction with a DB error and rolls the state back
completely; in particular a collision on the very first candidate already
aborts the cast — each candidate consumes exactly one salt, with no bounded
retry loop. -/
theorem C9_collision_aborts_without_retry :
    (∀ (sha256hex : String → String) (salt_stream : Nat → String) (db : DB)
        (u : UserRec) (pk : Nat) (chosen : List Nat),
        (VoteView_post sha256hex salt_stream db u pk chosen).1 = CastResult.db_error →
        (VoteView_post sha256hex salt_stream db u pk chosen).2 = db) ∧
    (∀ (sha256hex : String → String) (salt_stream : Nat → String) (db : DB)
        (u : UserRec) (pk : Nat) (chosen : List Nat) (e : Election)
        (cid : Nat) (rest : List Nat),
        db.findElection pk = some e →
        voteFormValid db e chosen = true →
        hasVotedRow db u.id pk = false →
        cleanedCandidates db pk chosen = cid :: rest →
        sha256hex (salt_stream 0 ++ ":" ++ toString cid ++ ":" ++ toString pk) ∈
          db.votes.map (fun v => v.receipt_hash) →
        (VoteView_post sha256hex salt_stream db u pk chosen).1 = CastResult.db_error) := by
  constructor
  · intro sha ss db u pk chosen h
    apply post_not_success_frame
    rw [h]
    rfl
  · intro sha ss db u pk chosen e cid rest hfe hvf hvr hclean hmem
    have hnv := getOrCreateLog_not_voted hvr
    rw [post_eq_loop hfe hvf hnv]
    have hveq : (getOrCreateDemo (getOrCreateLog db u.id pk).2 u).2.votes = db.votes := by
      rw [getOrCreateDemo_votes, getOrCreateLog_votes]
    rw [hclean, hveq]
    have hcol : (db.votes.any fun v =>
        v.receipt_hash == (generate_vote_receipt sha (ss 0) cid pk).2) = true := by
      rw [List.any_eq_true]
      obtain ⟨v, hv, hveq2⟩ := List.mem_map.mp hmem
      exact ⟨v, hv, by simp [generate_vote_receipt, hveq2]⟩
    have hloop : castVotesLoop sha ss pk
        (getOrCreateDemo (getOrCreateLog db u.id pk).2 u).1
        (cid :: rest) db.votes 0 = none := by
      unfold castVotesLoop
      dsimp only
      rw [if_pos hcol]
    rw [hloop]

/-- C9 witness: the collision fixture aborts with a DB error and the state
rolls back to exactly the original database. -/
theorem C9_collision_witness :
    ((VoteView_post fixSha fixSalts fixDBCollide fixUser 1 [1]).2 = fixDBCollide) ∧
    (VoteView_post fixSha fixSalts fixDBCollide fixUser 1 [1]).1 = CastResult.db_error :=
  ⟨C9_collision_aborts_without_retry.1 fixSha fixSalts fixDBCollide fixUser 1 [1]
      (by decide),
   C9_collision_aborts_without_retry.2 fixSha fixSalts fixDBCollide fixUser 1 [1]
      fixElection 1 [] (by decide) (by decide) (by decide) (by decide) (by decide)⟩

/-- C10: verify_receipt strips and lowercases the submitted string and then
performs a pure existence lookup among the election's stored hashes, so any
two inputs with the same normalized form — e.g. an uppercase or
whitespace-padded variant of a stored lowercase hex digest — verify
identically. -/
theorem C10_verify_normalizes_input :
    (∀ (db : DB) (eid : Nat) (input : String),
        verify_receipt db eid input = true ↔
        normalizeHash input ∈ storedHashes db eid) ∧
    (∀ (db : DB) (eid : Nat) (h h' : String),
        normalizeHash h = normalizeHash h' →
        verify_receipt db eid h = verify_receipt db eid h') := by
  constructor
  · exact verify_eq_mem
  · intro db eid h h' hn
    have h1 := verify_eq_mem db eid h
    have h2 := verify_eq_mem db eid h'
    rw [hn] at h1
    cases hb : verify_receipt db eid h with
    | true =>
      rw [hb] at h1
      exact (h2.mpr (h1.mp rfl)).symm
    | false =>
      cases hb' : verify_receipt db eid h' with
      | false => rfl
      | true =>
        have hmem := h2.mp hb'
        have hcontra := h1.mpr hmem
        rw [hb] at hcontra
        exact absurd hcontra (by simp)

/-- C10 witness: "  ABC " verifies exactly like the stored lowercase form
"abc". -/
theorem C10_verify_normalizes_witness :
    (verify_receipt fixDBVerify 1 "  ABC " = true ↔
      normalizeHash "  ABC " ∈ storedHashes fixDBVerify 1) ∧
    verify_receipt fixDBVerify 1 "  ABC " = verify_receipt fixDBVerify 1 "abc" :=
  ⟨(C10_verify_normalizes_input.1 fixDBVerify 1 "  ABC "),
   C10_verify_normalizes_input.2 fixDBVerify 1 "  ABC " "abc" (by decide)⟩

end EBallot
